import Mathlib

/-
Shallow embedding of handlers.py from
jupyterlab_launcher_navigate_to_kernel_extension.

The core is KernelPathHandler._extract_env_path (handlers.py:108-219), a
priority cascade of path-shape rules over the executable path and the kernel
resource directory, with filesystem probes, plus the display-name lookup loop
of KernelPathHandler.get (handlers.py:69-81).

Modelling notes:
- Paths are strings; pattern matching is implemented on List Char.
- The filesystem is an oracle: os.path.realpath (wrapped in try/except at
  handlers.py:134-137) is modelled as returning Option String, where none
  models a raised OSError/ValueError; os.path.isdir and os.path.exists are
  total Bool-valued functions, exactly as in Python (both absorb OS errors
  internally and return False, they never raise).
- Python regexes are translated to explicit scanners.  All regexes in the
  source have the shape anchored-greedy prefix (.*) followed by a rigid
  suffix, so a greedy match selects the RIGHTMOST viable split point; the
  scanners below therefore prefer the rightmost occurrence.  The model is
  faithful for paths that contain no newline character (in Python, "." does
  not match a newline and "$" may match before a trailing newline);
  universally quantified theorems about regex-based rules carry an explicit
  no-newline hypothesis.
-/

/-- Filesystem oracle consumed by the resolver.  realpath returns none when
os.path.realpath would raise (caught at handlers.py:134-137); isdir and
path_exists are total, as os.path.isdir / os.path.exists are in Python. -/
structure FS where
  realpath : String → Option String
  isdir : String → Bool
  path_exists : String → Bool

/-- handlers.py:134-137 - real_path = os.path.realpath(executable_path),
falling back to the original path when realpath raises. -/
def realPathOf (fs : FS) (exe : String) : String :=
  (fs.realpath exe).getD exe

/-- Python os.path.join(a, b) for a relative b on POSIX: a + "/" + b, with no
extra separator when a is empty or already ends in "/". -/
def osPathJoin (a b : String) : String :=
  if a = "" then b
  else if a.toList.getLast? = some '/' then a ++ b
  else a ++ "/" ++ b

/-- Split a list at the FIRST occurrence of marker, returning the parts
before and after it - the semantics of Python's s.find(marker) combined with
slicing (handlers.py:144-145). -/
def splitFirst (marker : List Char) : List Char → Option (List Char × List Char)
  | [] => if marker.isEmpty then some ([], []) else none
  | c :: rest =>
    if marker.isPrefixOf (c :: rest) then some ([], (c :: rest).drop marker.length)
    else
      match splitFirst marker rest with
      | some pr => some (c :: pr.1, pr.2)
      | none => none

/-- Split a list at the LAST occurrence of marker - the semantics of an
anchored Python regex with a greedy (.*) group before the marker. -/
def splitLast (marker : List Char) : List Char → Option (List Char × List Char)
  | [] => if marker.isEmpty then some ([], []) else none
  | c :: rest =>
    match splitLast marker rest with
    | some pr => some (c :: pr.1, pr.2)
    | none =>
      if marker.isPrefixOf (c :: rest) then some ([], (c :: rest).drop marker.length)
      else none

def venvMarker : List Char := "/.venv/".toList

def dotVenvBinPy : List Char := "/.venv/bin/python".toList

def binPy : List Char := "/bin/python".toList

def shareJkMarker : List Char := "/share/jupyter/kernels/".toList

/-- Body of the priority loop at handlers.py:141-147 for one path: if
"/.venv/" occurs in the path, take everything before its first occurrence and
accept it when it is an existing directory. -/
def venvCheck (fs : FS) (path : List Char) : Option String :=
  match splitFirst venvMarker path with
  | some pr => if fs.isdir (String.mk pr.1) then some (String.mk pr.1) else none
  | none => none

/-- handlers.py:141-147 - the loop over [original_path, real_path]. -/
def stage1 (fs : FS) (original real : List Char) : Option String :=
  match venvCheck fs original with
  | some r => some r
  | none => venvCheck fs real

/-- handlers.py:152-156 - re.match(r"^(.*)/(\.venv)/bin/python.*$",
original_path); the greedy group 1 is everything before the last occurrence
of "/.venv/bin/python"; accepted when it is an existing directory. -/
def stage2 (fs : FS) (original : List Char) : Option String :=
  match splitLast dotVenvBinPy original with
  | some pr => if fs.isdir (String.mk pr.1) then some (String.mk pr.1) else none
  | none => none

/-- handlers.py:160-166 - re.match(r"^(.*)/bin/python.*$", original_path);
group 1 is everything before the last "/bin/python"; accepted when
pyvenv.cfg exists directly inside it; returns the candidate itself. -/
def stage3 (fs : FS) (original : List Char) : Option String :=
  match splitLast binPy original with
  | some pr =>
    if fs.path_exists (osPathJoin (String.mk pr.1) "pyvenv.cfg")
    then some (String.mk pr.1) else none
  | none => none

/-- One attempt of r"/([^/]+)/envs/([^/]+)/bin/python.*$" at the start of the
given suffix: returns group 2 (the single segment before "/envs/") when the
suffix decomposes as "/" B "/envs/" N "/bin/python" tail with B, N nonempty
and slash-free. -/
def condaLocalHere : List Char → Option (List Char)
  | '/' :: t =>
    let b := t.takeWhile (fun c => c != '/')
    let rest := t.dropWhile (fun c => c != '/')
    if b.isEmpty then none
    else if ("/envs/".toList).isPrefixOf rest then
      let t2 := rest.drop 6
      let n := t2.takeWhile (fun c => c != '/')
      let rest2 := t2.dropWhile (fun c => c != '/')
      if n.isEmpty then none
      else if binPy.isPrefixOf rest2 then some b else none
    else none
  | _ => none

/-- handlers.py:170-173 - re.match(r"^(.*)/([^/]+)/envs/([^/]+)/bin/python.*$",
real_path).  The greedy group 1 makes the regex pick the rightmost viable
split; the scanner recurses right-to-left accordingly, returning
(group 1, group 2). -/
def condaLocalMatch : List Char → Option (List Char × List Char)
  | [] => none
  | c :: rest =>
    match condaLocalMatch rest with
    | some ab => some (c :: ab.1, ab.2)
    | none =>
      match condaLocalHere (c :: rest) with
      | some b => some ([], b)
      | none => none

/-- handlers.py:170-182 - conda local environment rule: group 2 must not be
one of "opt", "usr", "home", and group 1 must be an existing directory. -/
def stage4 (fs : FS) (real : List Char) : Option String :=
  match condaLocalMatch real with
  | some ab =>
    if ab.2 = "opt".toList ∨ ab.2 = "usr".toList ∨ ab.2 = "home".toList then none
    else if fs.isdir (String.mk ab.1) then some (String.mk ab.1) else none
  | none => none

/-- Tail admitted after group 1 by r"(?:/bin/python.*)?$": end of string, or
"/bin/python" followed by anything. -/
def binPyTailOk (t : List Char) : Bool :=
  t.isEmpty || binPy.isPrefixOf t

/-- Completes r"(?:envs|conda)/[^/]+" after a matched marker: the segment N
after the marker must be nonempty and slash-free, and what follows N must be
an admissible tail; returns marker ++ N. -/
def condaGlobalName (marker t : List Char) : Option (List Char) :=
  let n := t.takeWhile (fun c => c != '/')
  let rest := t.dropWhile (fun c => c != '/')
  if n.isEmpty then none
  else if binPyTailOk rest then some (marker ++ n) else none

/-- One attempt of r"/(?:envs|conda)/[^/]+(?:/bin/python.*)?$" at the start
of the given suffix, trying the alternatives in the regex's order. -/
def condaGlobalHere (s : List Char) : Option (List Char) :=
  match (if ("/envs/".toList).isPrefixOf s
         then condaGlobalName ("/envs/".toList) (s.drop 6) else none) with
  | some r => some r
  | none =>
    if ("/conda/".toList).isPrefixOf s
    then condaGlobalName ("/conda/".toList) (s.drop 7) else none

/-- handlers.py:187-190 - re.match(r"^(.*/(?:envs|conda)/[^/]+)(?:/bin/python.*)?$",
real_path); the greedy group 1 picks the rightmost viable marker; returns
group 1. -/
def condaGlobalMatch : List Char → Option (List Char)
  | [] => none
  | c :: rest =>
    match condaGlobalMatch rest with
    | some r => some (c :: r)
    | none => condaGlobalHere (c :: rest)

/-- handlers.py:187-192 - global conda environment rule (no filesystem
check). -/
def stage5 (real : List Char) : Option String :=
  (condaGlobalMatch real).map (fun r => String.mk r)

/-- One fixed alternative of the base-conda regex: root must be a literal
prefix and be followed by an admissible tail. -/
def baseCondaFixed (root s : List Char) : Option (List Char) :=
  if root.isPrefixOf s && binPyTailOk (s.drop root.length) then some root else none

/-- Completes r"conda3?" with the trailing r"(?:/bin/python.*)?$": the greedy
optional "3" is tried first, then the regex backtracks to the variant without
it. -/
def condaSuffix (r : List Char) : Option (List Char) :=
  if ("conda".toList).isPrefixOf r then
    match r.drop 5 with
    | '3' :: r4 =>
      if binPyTailOk r4 then some ("conda3".toList)
      else if binPyTailOk ('3' :: r4) then some ("conda".toList)
      else none
    | r3 => if binPyTailOk r3 then some ("conda".toList) else none
  else none

/-- Completes r"/(?:mini)?conda3?" with the trailing tail pattern; the greedy
optional "mini" is tried first, then the regex backtracks to the variant
without it. -/
def condaNamePart (rest : List Char) : Option (List Char) :=
  if rest.head? = some '/' then
    match (if ("mini".toList).isPrefixOf (rest.drop 1)
           then (condaSuffix ((rest.drop 1).drop 4)).map
                  (fun nm => '/' :: ("mini".toList ++ nm))
           else none) with
    | some res => some res
    | none => (condaSuffix (rest.drop 1)).map (fun nm => '/' :: nm)
  else none

/-- The alternative r"/home/[^/]+/(?:mini)?conda3?" of the base-conda regex:
one nonempty slash-free user segment after "/home/", then the conda name. -/
def baseCondaHome (s : List Char) : Option (List Char) :=
  if ("/home/".toList).isPrefixOf s then
    if ((s.drop 6).takeWhile (fun c => c != '/')).isEmpty then none
    else
      match condaNamePart ((s.drop 6).dropWhile (fun c => c != '/')) with
      | some nm =>
        some ("/home/".toList ++ (s.drop 6).takeWhile (fun c => c != '/') ++ nm)
      | none => none
  else none

/-- handlers.py:195-198 - re.match(
r"^(/opt/conda|/home/[^/]+/(?:mini)?conda3?|/usr/local/conda)(?:/bin/python.*)?$",
real_path); alternatives tried in the regex's order. -/
def baseCondaMatch (s : List Char) : Option (List Char) :=
  match baseCondaFixed ("/opt/conda".toList) s with
  | some r => some r
  | none =>
    match baseCondaHome s with
    | some r => some r
    | none => baseCondaFixed ("/usr/local/conda".toList) s

/-- handlers.py:195-200 - base conda rule (no filesystem check). -/
def stage6 (real : List Char) : Option String :=
  (baseCondaMatch real).map (fun r => String.mk r)

/-- handlers.py:204-209 - if "/share/jupyter/kernels/" occurs in
resource_dir, split on it and return the (truthy, i.e. nonempty) part before
the first occurrence. -/
def stage7 (rdl : List Char) : Option String :=
  match splitFirst shareJkMarker rdl with
  | some pr => if pr.1.isEmpty then none else some (String.mk pr.1)
  | none => none

/-- handlers.py:212-217 - re.match(r"^(.*)/bin/python.*$", real_path);
accepted when a "lib" directory exists under the candidate. -/
def stage8 (fs : FS) (real : List Char) : Option String :=
  match splitLast binPy real with
  | some pr =>
    if fs.isdir (osPathJoin (String.mk pr.1) "lib") then some (String.mk pr.1) else none
  | none => none

/-- First non-none result of the ordered rule cascade (Python's sequence of
early returns). -/
def firstSome : List (Option String) → Option String
  | [] => none
  | some r :: _ => some r
  | none :: rest => firstSome rest

/-- The full rule cascade of _extract_env_path after the early exit, in
source order (handlers.py:141-219). -/
def extractStages (fs : FS) (original real rdl : List Char) : Option String :=
  firstSome
    [stage1 fs original real, stage2 fs original, stage3 fs original,
     stage4 fs real, stage5 real, stage6 real, stage7 rdl, stage8 fs real]

/-- handlers.py:108-219 - KernelPathHandler._extract_env_path.  A missing or
empty executable path returns None immediately (handlers.py:126-127). -/
def _extract_env_path (fs : FS) (executable_path : Option String)
    (resource_dir : String) : Option String :=
  match executable_path with
  | none => none
  | some exe =>
    if exe = "" then none
    else extractStages fs exe.toList (realPathOf fs exe).toList resource_dir.toList

/-- One kernel spec entry as consumed by KernelPathHandler.get: the nested
spec dict's display_name (absent modelled as none), its argv, and the
resource_dir of the spec data. -/
structure SpecData where
  display_name : Option String
  argv : List String
  resource_dir : String

/-- Outcome of KernelPathHandler.get restricted to the lookup logic: either
the 404 error payload, or the success record (handlers.py:76-99). -/
inductive GetOutcome where
  | notFound (error : String) : GetOutcome
  | success (kernel_name display_name resource_dir : String)
      (executable_path env_path : Option String) : GetOutcome
deriving DecidableEq

/-- handlers.py:69-74 - linear scan over the aggregated specs in iteration
order; first spec whose display_name equals the query wins. -/
def findKernel (all_specs : List (String × SpecData)) (display_name : String) :
    Option (String × SpecData) :=
  all_specs.find? (fun p => p.2.display_name == some display_name)

/-- handlers.py:69-99 - the lookup and response shaping of
KernelPathHandler.get (the 500 wrapper for unexpected exceptions is outside
the modelled logic). -/
def handleGet (fs : FS) (all_specs : List (String × SpecData))
    (display_name : String) : GetOutcome :=
  match findKernel all_specs display_name with
  | none =>
    GetOutcome.notFound ("Kernel with display name '" ++ display_name ++ "' not found")
  | some p =>
    GetOutcome.success p.1 display_name p.2.resource_dir p.2.argv.head?
      (_extract_env_path fs p.2.argv.head? p.2.resource_dir)

/-- An FS whose realpath is the identity (no symlinks), with a given list of
existing directories and no existing files. -/
def fsDirs (dirs : List String) : FS :=
  { realpath := fun s => some s, isdir := fun s => dirs.contains s,
    path_exists := fun _ => false }

/-- An FS whose realpath is the identity, with a given list of existing files
and no directories. -/
def fsFiles (files : List String) : FS :=
  { realpath := fun s => some s, isdir := fun _ => false,
    path_exists := fun s => files.contains s }

/-- An FS whose realpath always raises. -/
def fsNoLink : FS :=
  { realpath := fun _ => none, isdir := fun _ => false,
    path_exists := fun _ => false }

/-- fs with its realpath replaced by the identity resolution. -/
def withIdRealpath (fs : FS) : FS :=
  { fs with realpath := fun s => some s }

/-- The four conda directory names the base-conda regex admits under
/home/<user>/: the optional "mini" and the optional "3" give four
combinations. -/
def condaNames : List (List Char) :=
  ["/conda".toList, "/conda3".toList, "/miniconda".toList, "/miniconda3".toList]

/-- The exact set of roots the base-conda rule can return. -/
def IsBaseCondaRoot (r : List Char) : Prop :=
  r = "/opt/conda".toList ∨ r = "/usr/local/conda".toList ∨
  ∃ u nm, u ≠ [] ∧ (∀ c ∈ u, c ≠ '/') ∧ nm ∈ condaNames ∧
    r = "/home/".toList ++ u ++ nm

lemma extract_some (fs : FS) (exe rd : String) (h : ¬ exe = "") :
    _extract_env_path fs (some exe) rd =
      extractStages fs exe.toList (realPathOf fs exe).toList rd.toList := by
  simp [_extract_env_path, h]

/-- C7: resolve with an absent or with an empty executable path returns no
result, for every filesystem and every resource directory, even one matching
the resource-directory fallback. -/
theorem resolve_absent_executable (fs : FS) (rd : String) :
    _extract_env_path fs none rd = none ∧ _extract_env_path fs (some "") rd = none :=
  ⟨rfl, rfl⟩

/-- C8: resolve is total - its result is always either a path or no result -
and a failed symlink resolution makes the real path fall back to the original
path unchanged, so that resolve behaves exactly as if symlink resolution were
the identity; directory/existence probes are total Booleans in the model,
as os.path.isdir and os.path.exists absorb filesystem errors internally. -/
theorem resolve_total_and_probe_safe (fs : FS) (exe rd : String) :
    (fs.realpath exe = none →
      realPathOf fs exe = exe ∧
      _extract_env_path fs (some exe) rd =
        _extract_env_path (withIdRealpath fs) (some exe) rd)
    ∧ (_extract_env_path fs (some exe) rd = none ∨
       ∃ p, _extract_env_path fs (some exe) rd = some p) := by
  constructor
  · intro hfail
    have h1 : realPathOf fs exe = exe := by simp [realPathOf, hfail]
    refine ⟨h1, ?_⟩
    by_cases he : exe = ""
    · subst he; rfl
    · rw [extract_some fs exe rd he, extract_some (withIdRealpath fs) exe rd he, h1]
      rfl
  · cases _extract_env_path fs (some exe) rd with
    | none => exact Or.inl rfl
    | some p => exact Or.inr ⟨p, rfl⟩

/-- C8 witness: at a concrete filesystem whose realpath always raises,
resolve behaves as if symlink resolution were the identity. -/
theorem resolve_total_and_probe_safe_witness :
    _extract_env_path fsNoLink (some "/a/bin/python") "" =
      _extract_env_path (withIdRealpath fsNoLink) (some "/a/bin/python") "" :=
  ((resolve_total_and_probe_safe fsNoLink "/a/bin/python" "").1 rfl).2

/-- C1: if the original executable path contains the segment "/.venv/" and
the portion before its first occurrence is an existing directory, resolve
returns that portion and no later rule matters (the result holds for every
resource directory and every symlink behaviour); and when the original path
check does not accept, the same holds for the symlink-resolved real path. -/
theorem dot_venv_containment (fs : FS) (exe rd : String) (h : exe ≠ "") :
    (∀ pre post, splitFirst venvMarker exe.toList = some (pre, post) →
      fs.isdir (String.mk pre) = true →
      _extract_env_path fs (some exe) rd = some (String.mk pre)) ∧
    (∀ pre post, venvCheck fs exe.toList = none →
      splitFirst venvMarker (realPathOf fs exe).toList = some (pre, post) →
      fs.isdir (String.mk pre) = true →
      _extract_env_path fs (some exe) rd = some (String.mk pre)) := by
  constructor
  · intro pre post hsp hdir
    rw [extract_some fs exe rd h]
    have hv : venvCheck fs exe.toList = some (String.mk pre) := by
      unfold venvCheck; rw [hsp]; simp [hdir]
    unfold extractStages stage1
    rw [hv]
    rfl
  · intro pre post hnone hsp hdir
    rw [extract_some fs exe rd h]
    have hv : venvCheck fs ((realPathOf fs exe).toList) = some (String.mk pre) := by
      unfold venvCheck; rw [hsp]; simp [hdir]
    unfold extractStages stage1
    rw [hnone, hv]
    rfl

/-- C1 witness: the spec's rule-1 example, /home/u/project/.venv/bin/python
with /home/u/project an existing directory, resolves to /home/u/project. -/
theorem dot_venv_containment_witness :
    _extract_env_path (fsDirs ["/home/u/project"])
      (some "/home/u/project/.venv/bin/python") "" = some "/home/u/project" :=
  (dot_venv_containment (fsDirs ["/home/u/project"])
      "/home/u/project/.venv/bin/python" "" (by decide)).1
    ("/home/u/project".toList) ("bin/python".toList) rfl (by decide)

/-- C10: with more than one "/.venv/" segment, the dot-venv containment rule
splits at the first (leftmost) occurrence: /a/.venv/b/.venv/bin/python
yields /a whenever /a is an existing directory - not the prefix /a/.venv/b
of the later occurrence. -/
theorem venv_first_occurrence_wins (fs : FS) (rd : String)
    (h : fs.isdir "/a" = true) :
    _extract_env_path fs (some "/a/.venv/b/.venv/bin/python") rd = some "/a" ∧
    ("/a" : String) ≠ "/a/.venv/b" := by
  constructor
  · rw [extract_some fs _ rd (by decide)]
    have hv : venvCheck fs ("/a/.venv/b/.venv/bin/python".toList) = some "/a" := by
      have e : venvCheck fs ("/a/.venv/b/.venv/bin/python".toList) =
          if fs.isdir "/a" then some "/a" else none := rfl
      rw [e, h]
      rfl
    unfold extractStages stage1
    rw [hv]
    rfl
  · decide

/-- C10 witness: the same at a concrete filesystem where /a exists. -/
theorem venv_first_occurrence_wins_witness :
    _extract_env_path (fsDirs ["/a"]) (some "/a/.venv/b/.venv/bin/python") "" = some "/a" :=
  (venv_first_occurrence_wins (fsDirs ["/a"]) "" (by decide)).1

/-- C9: when no spec in the registry has exactly the queried display name,
the lookup produces the 404 outcome whose error payload names the display
name, and no success record is produced. -/
theorem lookup_not_found (fs : FS) (all_specs : List (String × SpecData))
    (d : String) (h : ∀ p ∈ all_specs, p.2.display_name ≠ some d) :
    handleGet fs all_specs d =
      GetOutcome.notFound ("Kernel with display name '" ++ d ++ "' not found") := by
  have hf : findKernel all_specs d = none := by
    apply List.find?_eq_none.mpr
    intro p hp
    simp only [beq_iff_eq]
    exact h p hp
  simp [handleGet, hf]

/-- C9 witness: a registry with one spec of a different display name yields
the 404 outcome naming the queried display name. -/
theorem lookup_not_found_witness :
    handleGet (fsDirs []) [("python3", ⟨some "Python 3", ["/usr/bin/python3"], "/rd"⟩)]
      "R (ir)" =
      GetOutcome.notFound ("Kernel with display name 'R (ir)' not found") :=
  lookup_not_found (fsDirs [])
    [("python3", ⟨some "Python 3", ["/usr/bin/python3"], "/rd"⟩)] "R (ir)" (by decide)

/-- C3: for every original executable path of the form prefix/bin/python...
(prefix taken at the last occurrence, as the greedy regex does) that did not
resolve under the dot-venv rules, if pyvenv.cfg exists directly inside the
prefix then resolve returns the prefix itself, not its parent.  The
no-newline hypothesis marks the domain on which the regex model is exact. -/
theorem named_venv_rule (fs : FS) (exe rd : String) (pre post : List Char)
    (hnl : exe.toList.contains '\n' = false)
    (h : exe ≠ "")
    (h1 : stage1 fs exe.toList (realPathOf fs exe).toList = none)
    (h2 : stage2 fs exe.toList = none)
    (hsp : splitLast binPy exe.toList = some (pre, post))
    (hcfg : fs.path_exists (osPathJoin (String.mk pre) "pyvenv.cfg") = true) :
    _extract_env_path fs (some exe) rd = some (String.mk pre) := by
  rw [extract_some fs exe rd h]
  have h3 : stage3 fs exe.toList = some (String.mk pre) := by
    unfold stage3
    rw [hsp]
    simp [hcfg]
  unfold extractStages
  rw [h1, h2, h3]
  rfl

/-- C3 witness: the spec's rule-3 example, /home/u/.virtualenvs/myenv/bin/python
with pyvenv.cfg directly under /home/u/.virtualenvs/myenv, resolves to the
venv directory itself. -/
theorem named_venv_rule_witness :
    _extract_env_path (fsFiles ["/home/u/.virtualenvs/myenv/pyvenv.cfg"])
      (some "/home/u/.virtualenvs/myenv/bin/python") "" =
      some "/home/u/.virtualenvs/myenv" :=
  named_venv_rule (fsFiles ["/home/u/.virtualenvs/myenv/pyvenv.cfg"])
    "/home/u/.virtualenvs/myenv/bin/python" "" ("/home/u/.virtualenvs/myenv".toList)
    [] (by decide) (by decide) rfl rfl rfl (by decide)

/-- C4: /project/subdir/envs/foo/bin/python with no .venv segment, no
pyvenv.cfg marker and identity symlink resolution resolves to /project, two
levels above envs/foo, when /project/subdir exists as a directory (on a real
filesystem its parent /project, which the code actually probes, then exists
as a directory too - both facts are hypotheses). -/
theorem conda_local_two_levels (fs : FS) (rd : String)
    (hrp : fs.realpath "/project/subdir/envs/foo/bin/python" =
      some "/project/subdir/envs/foo/bin/python")
    (hcfg : fs.path_exists "/project/subdir/envs/foo/pyvenv.cfg" = false)
    (hsub : fs.isdir "/project/subdir" = true)
    (hproj : fs.isdir "/project" = true) :
    _extract_env_path fs (some "/project/subdir/envs/foo/bin/python") rd =
      some "/project" := by
  have hreal : realPathOf fs "/project/subdir/envs/foo/bin/python" =
      "/project/subdir/envs/foo/bin/python" := by
    simp [realPathOf, hrp]
  rw [extract_some fs _ rd (by decide), hreal]
  have e1 : stage1 fs ("/project/subdir/envs/foo/bin/python".toList)
      ("/project/subdir/envs/foo/bin/python".toList) = none := rfl
  have e2 : stage2 fs ("/project/subdir/envs/foo/bin/python".toList) = none := rfl
  have e3 : stage3 fs ("/project/subdir/envs/foo/bin/python".toList) =
      if fs.path_exists "/project/subdir/envs/foo/pyvenv.cfg"
      then some "/project/subdir/envs/foo" else none := rfl
  have e4 : stage4 fs ("/project/subdir/envs/foo/bin/python".toList) =
      if fs.isdir "/project" then some "/project" else none := rfl
  unfold extractStages
  rw [e1, e2, e3, hcfg, e4, hproj]
  rfl

/-- C4 witness: the same at a concrete filesystem where /project and
/project/subdir are directories. -/
theorem conda_local_two_levels_witness :
    _extract_env_path (fsDirs ["/project", "/project/subdir"])
      (some "/project/subdir/envs/foo/bin/python") "" = some "/project" :=
  conda_local_two_levels (fsDirs ["/project", "/project/subdir"]) ""
    rfl rfl (by decide) (by decide)

/-- C2 counterexample: with /opt an existing directory (as on any real
system), no pyvenv.cfg marker and identity symlink resolution, resolve on
/opt/conda/envs/myenv/bin/python3.11 returns /opt - the conda-local rule
fires first, since its group 2 is "conda", which is not in the excluded set
and its group 1 "/opt" is a directory - not /opt/conda/envs/myenv, so the
result also depends on the isdir existence check. -/
theorem conda_global_example_cex :
    _extract_env_path (fsDirs ["/opt"]) (some "/opt/conda/envs/myenv/bin/python3.11")
      "/rd" = some "/opt" ∧
    (some "/opt" : Option String) ≠ some "/opt/conda/envs/myenv" :=
  ⟨rfl, by decide⟩

/-- C2 amended: on /opt/conda/envs/myenv/bin/python3.11 with identity symlink
resolution and no pyvenv.cfg marker, resolve returns /opt when /opt is an
existing directory (rule 4 fires: its group 2 is "conda"), and
/opt/conda/envs/myenv otherwise (rule 5, which indeed has no existence
check); the result therefore does depend on the isdir("/opt") probe. -/
theorem conda_global_example_amended (fs : FS) (rd : String)
    (hrp : fs.realpath "/opt/conda/envs/myenv/bin/python3.11" =
      some "/opt/conda/envs/myenv/bin/python3.11")
    (hcfg : fs.path_exists "/opt/conda/envs/myenv/pyvenv.cfg" = false) :
    _extract_env_path fs (some "/opt/conda/envs/myenv/bin/python3.11") rd =
      some (if fs.isdir "/opt" then "/opt" else "/opt/conda/envs/myenv") := by
  have hreal : realPathOf fs "/opt/conda/envs/myenv/bin/python3.11" =
      "/opt/conda/envs/myenv/bin/python3.11" := by
    simp [realPathOf, hrp]
  rw [extract_some fs _ rd (by decide), hreal]
  have e1 : stage1 fs ("/opt/conda/envs/myenv/bin/python3.11".toList)
      ("/opt/conda/envs/myenv/bin/python3.11".toList) = none := rfl
  have e2 : stage2 fs ("/opt/conda/envs/myenv/bin/python3.11".toList) = none := rfl
  have e3 : stage3 fs ("/opt/conda/envs/myenv/bin/python3.11".toList) =
      if fs.path_exists "/opt/conda/envs/myenv/pyvenv.cfg"
      then some "/opt/conda/envs/myenv" else none := rfl
  have e4 : stage4 fs ("/opt/conda/envs/myenv/bin/python3.11".toList) =
      if fs.isdir "/opt" then some "/opt" else none := rfl
  have e5 : stage5 ("/opt/conda/envs/myenv/bin/python3.11".toList) =
      some "/opt/conda/envs/myenv" := rfl
  unfold extractStages
  rw [e1, e2, e3, hcfg, e4, e5]
  cases hd : fs.isdir "/opt" with
  | false => simp [hd, firstSome]
  | true => simp [hd, firstSome]

/-- C2 amended witness: at a concrete filesystem where /opt is a directory,
resolve returns /opt. -/
theorem conda_global_example_amended_witness :
    _extract_env_path (fsDirs ["/opt"]) (some "/opt/conda/envs/myenv/bin/python3.11")
      "/x" = some "/opt" :=
  (conda_global_example_amended (fsDirs ["/opt"]) "/x" rfl rfl).trans (by decide)

/-- C5: whenever rules 1 through 6 produce no result and the executable path
is non-empty, if the resource directory contains /share/jupyter/kernels/ and
the portion before the first occurrence of that marker is non-empty, resolve
returns that portion.  The no-newline hypothesis marks the domain on which
the regex model of rules 2-6 is exact. -/
theorem resource_dir_fallback (fs : FS) (exe rd : String) (pre post : List Char)
    (hnl : exe.toList.contains '\n' = false)
    (h : exe ≠ "")
    (h1 : stage1 fs exe.toList (realPathOf fs exe).toList = none)
    (h2 : stage2 fs exe.toList = none)
    (h3 : stage3 fs exe.toList = none)
    (h4 : stage4 fs (realPathOf fs exe).toList = none)
    (h5 : stage5 (realPathOf fs exe).toList = none)
    (h6 : stage6 (realPathOf fs exe).toList = none)
    (hsp : splitFirst shareJkMarker rd.toList = some (pre, post))
    (hpre : pre ≠ []) :
    _extract_env_path fs (some exe) rd = some (String.mk pre) := by
  rw [extract_some fs exe rd h]
  have hne : pre.isEmpty = false := by
    cases pre with
    | nil => exact absurd rfl hpre
    | cons a l => rfl
  have h7 : stage7 rd.toList = some (String.mk pre) := by
    unfold stage7
    rw [hsp]
    simp [hne]
  unfold extractStages
  rw [h1, h2, h3, h4, h5, h6, h7]
  rfl

/-- C5 witness: an executable path matching no rule together with
resourceDir = /opt/conda/share/jupyter/kernels/python3 resolves to
/opt/conda. -/
theorem resource_dir_fallback_witness :
    _extract_env_path (fsDirs []) (some "/x")
      "/opt/conda/share/jupyter/kernels/python3" = some "/opt/conda" :=
  resource_dir_fallback (fsDirs []) "/x" "/opt/conda/share/jupyter/kernels/python3"
    ("/opt/conda".toList) ("python3".toList) (by decide) (by decide)
    rfl rfl rfl rfl rfl rfl rfl (by decide)

lemma isPrefixOf_true_iff (l : List Char) : ∀ s, l.isPrefixOf s = true ↔ ∃ t, s = l ++ t := by
  induction l with
  | nil =>
    intro s
    simpa [List.isPrefixOf] using ⟨s, rfl⟩
  | cons a l ih =>
    intro s
    cases s with
    | nil => simp [List.isPrefixOf]
    | cons b t =>
      simp only [List.isPrefixOf, Bool.and_eq_true, beq_iff_eq, ih t, List.cons_append]
      constructor
      · rintro ⟨rfl, u, rfl⟩
        exact ⟨u, rfl⟩
      · rintro ⟨u, hu⟩
        injection hu with h1 h2
        exact ⟨h1.symm, u, h2⟩

lemma isPrefixOf_append_self (l t : List Char) : l.isPrefixOf (l ++ t) = true :=
  (isPrefixOf_true_iff l (l ++ t)).mpr ⟨t, rfl⟩

lemma binPyTailOk_append (t2 : List Char) : binPyTailOk (binPy ++ t2) = true := by
  simp [binPyTailOk, isPrefixOf_append_self]

lemma binPyTailOk_cases (t : List Char) (h : binPyTailOk t = true) :
    t = [] ∨ ∃ t2, t = binPy ++ t2 := by
  unfold binPyTailOk at h
  cases (Bool.or_eq_true _ _).mp h with
  | inl h1 => exact Or.inl (by simpa [List.isEmpty_iff] using h1)
  | inr h2 => exact Or.inr ((isPrefixOf_true_iff _ _).mp h2)

lemma takeWhile_noslash_append (u rest : List Char) (hu : ∀ c ∈ u, c ≠ '/') :
    (u ++ '/' :: rest).takeWhile (fun c => c != '/') = u := by
  induction u with
  | nil => simp
  | cons a u ih =>
    have ha : (a != '/') = true := by
      simpa using hu a (by simp)
    simp [List.takeWhile_cons, ha, ih (fun c hc => hu c (by simp [hc]))]

lemma dropWhile_noslash_append (u rest : List Char) (hu : ∀ c ∈ u, c ≠ '/') :
    (u ++ '/' :: rest).dropWhile (fun c => c != '/') = '/' :: rest := by
  induction u with
  | nil => simp
  | cons a u ih =>
    have ha : (a != '/') = true := by
      simpa using hu a (by simp)
    simp [List.dropWhile_cons, ha, ih (fun c hc => hu c (by simp [hc]))]

lemma condaSuffix_conda_tail (t2 : List Char) :
    condaSuffix ("conda".toList ++ (binPy ++ t2)) = some ("conda".toList) := by
  unfold condaSuffix
  rw [if_pos (isPrefixOf_append_self ("conda".toList) (binPy ++ t2))]
  rw [show (("conda".toList ++ (binPy ++ t2)).drop 5) = '/' :: ("bin/python".toList ++ t2)
      from List.drop_left ("conda".toList) (binPy ++ t2)]
  show (if binPyTailOk ('/' :: ("bin/python".toList ++ t2))
        then some ("conda".toList) else none) = some ("conda".toList)
  rw [show binPyTailOk ('/' :: ("bin/python".toList ++ t2)) = true from binPyTailOk_append t2]
  rfl

lemma condaSuffix_conda3_tail (t2 : List Char) :
    condaSuffix ("conda3".toList ++ (binPy ++ t2)) = some ("conda3".toList) := by
  unfold condaSuffix
  rw [if_pos (show ("conda".toList).isPrefixOf ("conda3".toList ++ (binPy ++ t2)) = true from
      isPrefixOf_append_self ("conda".toList) ('3' :: (binPy ++ t2)))]
  rw [show (("conda3".toList ++ (binPy ++ t2)).drop 5) = '3' :: (binPy ++ t2) from
      List.drop_left ("conda".toList) ('3' :: (binPy ++ t2))]
  show (if binPyTailOk (binPy ++ t2) then some ("conda3".toList)
        else if binPyTailOk ('3' :: (binPy ++ t2)) then some ("conda".toList) else none) =
      some ("conda3".toList)
  rw [binPyTailOk_append t2]
  rfl

lemma condaSuffix_eq_some_iff (r nm : List Char) :
    condaSuffix r = some nm ↔
      ((nm = "conda".toList ∨ nm = "conda3".toList) ∧
       ∃ t, r = nm ++ t ∧ binPyTailOk t = true) := by
  constructor
  · intro h
    unfold condaSuffix at h
    by_cases hp : ("conda".toList).isPrefixOf r = true
    · rw [if_pos hp] at h
      obtain ⟨t0, rfl⟩ := (isPrefixOf_true_iff _ _).mp hp
      rw [show (("conda".toList ++ t0).drop 5) = t0 from List.drop_left ("conda".toList) t0] at h
      split at h
      · split at h
        · rename_i r4 hb
          injection h with h1
          subst h1
          exact ⟨Or.inr rfl, r4, rfl, hb⟩
        · split at h
          · rename_i r4 hb1 hb2
            rw [show binPyTailOk ('3' :: r4) = false from rfl] at hb2
            cases hb2
          · cases h
      · split at h
        · rename_i hb
          injection h with h1
          subst h1
          exact ⟨Or.inl rfl, _, rfl, hb⟩
        · cases h
    · rw [if_neg hp] at h
      cases h
  · rintro ⟨hnm, t, rfl, ht⟩
    rcases binPyTailOk_cases t ht with rfl | ⟨t2, rfl⟩
    · rcases hnm with rfl | rfl <;> rfl
    · rcases hnm with rfl | rfl
      · exact condaSuffix_conda_tail t2
      · exact condaSuffix_conda3_tail t2

lemma condaNamePart_conda (t : List Char) (ht : binPyTailOk t = true) :
    condaNamePart ('/' :: ("conda".toList ++ t)) = some ("/conda".toList) := by
  have hcs : condaSuffix ("conda".toList ++ t) = some ("conda".toList) :=
    (condaSuffix_eq_some_iff _ _).mpr ⟨Or.inl rfl, t, rfl, ht⟩
  unfold condaNamePart
  rw [show (('/' :: ("conda".toList ++ t)).drop 1) = "conda".toList ++ t from rfl]
  rw [show ("mini".toList).isPrefixOf ("conda".toList ++ t) = false from rfl]
  rw [hcs]
  rfl

lemma condaNamePart_conda3 (t : List Char) (ht : binPyTailOk t = true) :
    condaNamePart ('/' :: ("conda3".toList ++ t)) = some ("/conda3".toList) := by
  have hcs : condaSuffix ("conda3".toList ++ t) = some ("conda3".toList) :=
    (condaSuffix_eq_some_iff _ _).mpr ⟨Or.inr rfl, t, rfl, ht⟩
  unfold condaNamePart
  rw [show (('/' :: ("conda3".toList ++ t)).drop 1) = "conda3".toList ++ t from rfl]
  rw [show ("mini".toList).isPrefixOf ("conda3".toList ++ t) = false from rfl]
  rw [hcs]
  rfl

lemma condaNamePart_miniconda (t : List Char) (ht : binPyTailOk t = true) :
    condaNamePart ('/' :: ("miniconda".toList ++ t)) = some ("/miniconda".toList) := by
  have hcs : condaSuffix ("conda".toList ++ t) = some ("conda".toList) :=
    (condaSuffix_eq_some_iff _ _).mpr ⟨Or.inl rfl, t, rfl, ht⟩
  unfold condaNamePart
  rw [show (('/' :: ("miniconda".toList ++ t)).drop 1) = "miniconda".toList ++ t from rfl]
  rw [show ("mini".toList).isPrefixOf ("miniconda".toList ++ t) = true from
      isPrefixOf_append_self ("mini".toList) ("conda".toList ++ t)]
  rw [show (("miniconda".toList ++ t).drop 4) = "conda".toList ++ t from
      List.drop_left ("mini".toList) ("conda".toList ++ t)]
  rw [hcs]
  rfl

lemma condaNamePart_miniconda3 (t : List Char) (ht : binPyTailOk t = true) :
    condaNamePart ('/' :: ("miniconda3".toList ++ t)) = some ("/miniconda3".toList) := by
  have hcs : condaSuffix ("conda3".toList ++ t) = some ("conda3".toList) :=
    (condaSuffix_eq_some_iff _ _).mpr ⟨Or.inr rfl, t, rfl, ht⟩
  unfold condaNamePart
  rw [show (('/' :: ("miniconda3".toList ++ t)).drop 1) = "miniconda3".toList ++ t from rfl]
  rw [show ("mini".toList).isPrefixOf ("miniconda3".toList ++ t) = true from
      isPrefixOf_append_self ("mini".toList) ("conda3".toList ++ t)]
  rw [show (("miniconda3".toList ++ t).drop 4) = "conda3".toList ++ t from
      List.drop_left ("mini".toList) ("conda3".toList ++ t)]
  rw [hcs]
  rfl

lemma condaNamePart_eq_some_iff (rest nm : List Char) :
    condaNamePart rest = some nm ↔
      (nm ∈ condaNames ∧ ∃ t, rest = nm ++ t ∧ binPyTailOk t = true) := by
  constructor
  · intro h
    unfold condaNamePart at h
    split at h
    · rename_i hp
      cases rest with
      | nil => cases hp
      | cons c r =>
        injection hp with hc
        subst hc
        rw [show (('/' :: r).drop 1) = r from rfl] at h
        split at h
        · rename_i res heq
          injection h with h1
          subst h1
          by_cases hm : ("mini".toList).isPrefixOf r = true
          · rw [if_pos hm] at heq
            obtain ⟨r2, rfl⟩ := (isPrefixOf_true_iff _ _).mp hm
            rw [show (("mini".toList ++ r2).drop 4) = r2 from
                List.drop_left ("mini".toList) r2] at heq
            rw [Option.map_eq_some'] at heq
            obtain ⟨nm2, hcs, hres⟩ := heq
            obtain ⟨hnm2, t, rfl, ht⟩ := (condaSuffix_eq_some_iff _ _).mp hcs
            subst hres
            rcases hnm2 with rfl | rfl
            · exact ⟨by decide, t, rfl, ht⟩
            · exact ⟨by decide, t, rfl, ht⟩
          · rw [if_neg hm] at heq
            cases heq
        · rename_i heq
          rw [Option.map_eq_some'] at h
          obtain ⟨nm2, hcs, hres⟩ := h
          obtain ⟨hnm2, t, rfl, ht⟩ := (condaSuffix_eq_some_iff _ _).mp hcs
          subst hres
          rcases hnm2 with rfl | rfl
          · exact ⟨by decide, t, rfl, ht⟩
          · exact ⟨by decide, t, rfl, ht⟩
    · cases h
  · rintro ⟨hmem, t, rfl, ht⟩
    simp only [condaNames, List.mem_cons, List.not_mem_nil, or_false] at hmem
    rcases hmem with rfl | rfl | rfl | rfl
    · exact condaNamePart_conda t ht
    · exact condaNamePart_conda3 t ht
    · exact condaNamePart_miniconda t ht
    · exact condaNamePart_miniconda3 t ht

lemma baseCondaFixed_eq_some_iff (root s r : List Char) :
    baseCondaFixed root s = some r ↔
      (r = root ∧ ∃ t, s = root ++ t ∧ binPyTailOk t = true) := by
  unfold baseCondaFixed
  constructor
  · intro h
    split at h
    · rename_i hc
      injection h with h1
      obtain ⟨hp, htl⟩ := (Bool.and_eq_true _ _).mp hc
      obtain ⟨t, rfl⟩ := (isPrefixOf_true_iff _ _).mp hp
      rw [show ((root ++ t).drop root.length) = t from List.drop_left root t] at htl
      exact ⟨h1.symm, t, rfl, htl⟩
    · cases h
  · rintro ⟨rfl, t, rfl, ht⟩
    have hc : (r.isPrefixOf (r ++ t) && binPyTailOk ((r ++ t).drop r.length)) = true := by
      rw [isPrefixOf_append_self r t,
        show ((r ++ t).drop r.length) = t from List.drop_left r t, ht]
      rfl
    rw [if_pos hc]

lemma baseCondaHome_eq_some_iff (s r : List Char) :
    baseCondaHome s = some r ↔
      ∃ u nm, u ≠ [] ∧ (∀ c ∈ u, c ≠ '/') ∧ nm ∈ condaNames ∧
        r = "/home/".toList ++ u ++ nm ∧ ∃ t, s = r ++ t ∧ binPyTailOk t = true := by
  constructor
  · intro h
    unfold baseCondaHome at h
    split at h
    · rename_i hp
      obtain ⟨x, rfl⟩ := (isPrefixOf_true_iff _ _).mp hp
      rw [show (("/home/".toList ++ x).drop 6) = x from
        List.drop_left ("/home/".toList) x] at h
      split at h
      · cases h
      · rename_i hne
        split at h
        · rename_i nm2 heq
          injection h with h1
          obtain ⟨hmem, t, hdw, ht⟩ := (condaNamePart_eq_some_iff _ _).mp heq
          refine ⟨x.takeWhile (fun c => c != '/'), nm2, ?_, ?_, hmem, h1.symm, t, ?_, ht⟩
          · intro hEq
            rw [hEq] at hne
            simp at hne
          · intro c hc
            simpa using List.mem_takeWhile_imp hc
          · rw [← h1]
            have hx : x.takeWhile (fun c => c != '/') ++ (nm2 ++ t) = x := by
              rw [← hdw]
              exact List.takeWhile_append_dropWhile _ x
            calc "/home/".toList ++ x
                = "/home/".toList ++ (x.takeWhile (fun c => c != '/') ++ (nm2 ++ t)) := by
                  rw [hx]
              _ = ("/home/".toList ++ x.takeWhile (fun c => c != '/') ++ nm2) ++ t := by
                  simp [List.append_assoc]
        · cases h
    · cases h
  · rintro ⟨u, nm, hu, hsf, hmem, rfl, t, rfl, ht⟩
    have hne : u.isEmpty = false := by
      cases u with
      | nil => exact absurd rfl hu
      | cons a l => rfl
    simp only [condaNames, List.mem_cons, List.not_mem_nil, or_false] at hmem
    unfold baseCondaHome
    rcases hmem with rfl | rfl | rfl | rfl
    · rw [show ((("/home/".toList ++ u) ++ "/conda".toList) ++ t) =
          "/home/".toList ++ (u ++ ('/' :: ("conda".toList ++ t))) by simp]
      rw [isPrefixOf_append_self ("/home/".toList) (u ++ ('/' :: ("conda".toList ++ t)))]
      rw [show (("/home/".toList ++ (u ++ ('/' :: ("conda".toList ++ t)))).drop 6) =
          u ++ ('/' :: ("conda".toList ++ t)) from
          List.drop_left ("/home/".toList) (u ++ ('/' :: ("conda".toList ++ t)))]
      rw [takeWhile_noslash_append u ("conda".toList ++ t) hsf,
        dropWhile_noslash_append u ("conda".toList ++ t) hsf, hne,
        condaNamePart_conda t ht]
      rfl
    · rw [show ((("/home/".toList ++ u) ++ "/conda3".toList) ++ t) =
          "/home/".toList ++ (u ++ ('/' :: ("conda3".toList ++ t))) by simp]
      rw [isPrefixOf_append_self ("/home/".toList) (u ++ ('/' :: ("conda3".toList ++ t)))]
      rw [show (("/home/".toList ++ (u ++ ('/' :: ("conda3".toList ++ t)))).drop 6) =
          u ++ ('/' :: ("conda3".toList ++ t)) from
          List.drop_left ("/home/".toList) (u ++ ('/' :: ("conda3".toList ++ t)))]
      rw [takeWhile_noslash_append u ("conda3".toList ++ t) hsf,
        dropWhile_noslash_append u ("conda3".toList ++ t) hsf, hne,
        condaNamePart_conda3 t ht]
      rfl
    · rw [show ((("/home/".toList ++ u) ++ "/miniconda".toList) ++ t) =
          "/home/".toList ++ (u ++ ('/' :: ("miniconda".toList ++ t))) by simp]
      rw [isPrefixOf_append_self ("/home/".toList) (u ++ ('/' :: ("miniconda".toList ++ t)))]
      rw [show (("/home/".toList ++ (u ++ ('/' :: ("miniconda".toList ++ t)))).drop 6) =
          u ++ ('/' :: ("miniconda".toList ++ t)) from
          List.drop_left ("/home/".toList) (u ++ ('/' :: ("miniconda".toList ++ t)))]
      rw [takeWhile_noslash_append u ("miniconda".toList ++ t) hsf,
        dropWhile_noslash_append u ("miniconda".toList ++ t) hsf, hne,
        condaNamePart_miniconda t ht]
      rfl
    · rw [show ((("/home/".toList ++ u) ++ "/miniconda3".toList) ++ t) =
          "/home/".toList ++ (u ++ ('/' :: ("miniconda3".toList ++ t))) by simp]
      rw [isPrefixOf_append_self ("/home/".toList) (u ++ ('/' :: ("miniconda3".toList ++ t)))]
      rw [show (("/home/".toList ++ (u ++ ('/' :: ("miniconda3".toList ++ t)))).drop 6) =
          u ++ ('/' :: ("miniconda3".toList ++ t)) from
          List.drop_left ("/home/".toList) (u ++ ('/' :: ("miniconda3".toList ++ t)))]
      rw [takeWhile_noslash_append u ("miniconda3".toList ++ t) hsf,
        dropWhile_noslash_append u ("miniconda3".toList ++ t) hsf, hne,
        condaNamePart_miniconda3 t ht]
      rfl

/-- C6 counterexample: the base-conda regex also admits "miniconda" with no
trailing "3": /home/u/miniconda/bin/python IS matched by rule 6, which
returns /home/u/miniconda, and resolve (with no dot-venv, no pyvenv.cfg, no
envs segment, identity symlink resolution) returns it. -/
theorem base_conda_fixed_set_cex :
    baseCondaMatch ("/home/u/miniconda/bin/python".toList) =
      some ("/home/u/miniconda".toList) ∧
    _extract_env_path (fsDirs []) (some "/home/u/miniconda/bin/python") "/rd" =
      some "/home/u/miniconda" :=
  ⟨rfl, rfl⟩

/-- C6 amended: the base-conda rule matches exactly the roots /opt/conda,
/usr/local/conda, and /home/(user)/N for a nonempty slash-free user segment
and N one of conda, conda3, miniconda, miniconda3 (the regex's optional
"mini" and optional "3" are independent), each optionally followed by
/bin/python and anything; the match returns the root verbatim. -/
theorem base_conda_rule_exact (s r : List Char) :
    baseCondaMatch s = some r ↔
      (IsBaseCondaRoot r ∧ ∃ t, s = r ++ t ∧ binPyTailOk t = true) := by
  constructor
  · intro h
    unfold baseCondaMatch at h
    split at h
    · rename_i r0 heq
      injection h with h1
      subst h1
      obtain ⟨rfl, t, rfl, ht⟩ := (baseCondaFixed_eq_some_iff _ _ _).mp heq
      exact ⟨Or.inl rfl, t, rfl, ht⟩
    · rename_i heq1
      split at h
      · rename_i r0 heq2
        injection h with h1
        subst h1
        obtain ⟨u, nm, hu, hsf, hmem, rfl, t, rfl, ht⟩ :=
          (baseCondaHome_eq_some_iff _ _).mp heq2
        exact ⟨Or.inr (Or.inr ⟨u, nm, hu, hsf, hmem, rfl⟩), t, rfl, ht⟩
      · rename_i heq2
        obtain ⟨rfl, t, rfl, ht⟩ := (baseCondaFixed_eq_some_iff _ _ _).mp h
        exact ⟨Or.inr (Or.inl rfl), t, rfl, ht⟩
  · rintro ⟨hroot, t, rfl, ht⟩
    rcases hroot with rfl | rfl | ⟨u, nm, hu, hsf, hmem, rfl⟩
    · unfold baseCondaMatch
      rw [(baseCondaFixed_eq_some_iff ("/opt/conda".toList)
        ("/opt/conda".toList ++ t) ("/opt/conda".toList)).mpr ⟨rfl, t, rfl, ht⟩]
    · unfold baseCondaMatch
      have e1 : baseCondaFixed ("/opt/conda".toList) ("/usr/local/conda".toList ++ t) =
          none := rfl
      have e2 : baseCondaHome ("/usr/local/conda".toList ++ t) = none := rfl
      rw [e1, e2,
        (baseCondaFixed_eq_some_iff ("/usr/local/conda".toList)
          ("/usr/local/conda".toList ++ t) ("/usr/local/conda".toList)).mpr ⟨rfl, t, rfl, ht⟩]
    · unfold baseCondaMatch
      have e1 : baseCondaFixed ("/opt/conda".toList)
          ((("/home/".toList ++ u) ++ nm) ++ t) = none := by
        unfold baseCondaFixed
        rw [show ("/opt/conda".toList).isPrefixOf ((("/home/".toList ++ u) ++ nm) ++ t) =
            false from rfl]
        rfl
      rw [e1,
        (baseCondaHome_eq_some_iff ((("/home/".toList ++ u) ++ nm) ++ t)
          (("/home/".toList ++ u) ++ nm)).mpr
          ⟨u, nm, hu, hsf, hmem, rfl, t, rfl, ht⟩]

/-- C6 amended witness: /home/u/conda/bin/python3.9 is matched by the rule,
returning /home/u/conda. -/
theorem base_conda_rule_exact_witness :
    baseCondaMatch ("/home/u/conda/bin/python3.9".toList) = some ("/home/u/conda".toList) :=
  (base_conda_rule_exact ("/home/u/conda/bin/python3.9".toList)
      ("/home/u/conda".toList)).mpr
    ⟨Or.inr (Or.inr ⟨"u".toList, "/conda".toList, by decide, by decide, by decide, rfl⟩),
     "/bin/python3.9".toList, rfl, rfl⟩
